import Mathlib

/-!
Verification of the per-frame simulation core of the 2D particle simulator
(`script.js`).  Numbers are modelled by `ℚ`; the one irrational quantity,
`Math.hypot(dx, dy)`, is passed to `resolveCollision` as an explicit argument
`dist` and characterised in the theorems by `0 ≤ dist` and
`dist * dist = dx ^ 2 + dy ^ 2`.
-/

namespace ParticleSim

/-- Palette constant `COLORS` from the source. -/
def COLORS : List String := ["#ff595e", "#ffca3a", "#8ac926", "#1982c4", "#6a4c93"]

/-- Constant `FADE_TIME = 0.15` (seconds for colour blend). -/
def FADE_TIME : ℚ := 15 / 100

/-- Constant `BASE_SPEED = 80` (px/s). -/
def BASE_SPEED : ℚ := 80

/-- Constant `CELL_SIZE = 32` from `script.js` (the `part_000` variant uses 20);
the grid definitions below take the cell size as a parameter. -/
def CELL_SIZE : ℚ := 32

/-- Alias `COLOR_ORDER = COLORS` from the source. -/
def COLOR_ORDER : List String := COLORS

/-- Model of `colorIndexMap = new Map(COLOR_ORDER.map((c, i) => [c, i]))`:
the `Map` holds exactly the five entries pairing each `COLOR_ORDER` colour
with its index, so `Map.get` is this five-way case split, with `none`
playing the role of `undefined`. -/
def colorIndexMap (c : String) : Option ℕ :=
  if c = "#ff595e" then some 0
  else if c = "#ffca3a" then some 1
  else if c = "#8ac926" then some 2
  else if c = "#1982c4" then some 3
  else if c = "#6a4c93" then some 4
  else none

/-- Translation of `dominatesColor(colorA, colorB)`: `undefined` indices give
`false`, otherwise test `idxB === (idxA + 1) % COLOR_ORDER.length`. -/
def dominatesColor (colorA colorB : String) : Bool :=
  match colorIndexMap colorA, colorIndexMap colorB with
  | some idxA, some idxB => idxB == (idxA + 1) % COLOR_ORDER.length
  | _, _ => false

/-- Value of a hexadecimal digit character, `none` for non-digits. -/
def hexDigitVal (c : Char) : Option ℕ :=
  if '0' ≤ c ∧ c ≤ '9' then some (c.toNat - 48)
  else if 'a' ≤ c ∧ c ≤ 'f' then some (c.toNat - 87)
  else if 'A' ≤ c ∧ c ≤ 'F' then some (c.toNat - 55)
  else none

/-- Parse the longest hexadecimal-digit prefix, as `parseInt(s, 16)` does.
When no digit is parsed, `parseInt` returns `NaN`, and the bitwise channel
extractions in `parseHexColor` turn `NaN` into 0; starting from accumulator 0
produces the same three channels. -/
def parseHexAux : List Char → ℕ → ℕ
  | [], acc => acc
  | c :: cs, acc =>
    match hexDigitVal c with
    | some d => parseHexAux cs (acc * 16 + d)
    | none => acc

/-- Translation of `parseHexColor(hex)`: parse `hex.slice(1)` as a hex number
and extract the three 8-bit channels.  The JS shifts act on 32-bit integers;
inputs are palette-style 7-character strings, whose value stays below `2^24`,
where plain natural arithmetic agrees. -/
def parseHexColor (hex : String) : ℕ × ℕ × ℕ :=
  let num := parseHexAux (hex.toList.drop 1) 0
  ((num / 2 ^ 16) % 256, (num / 2 ^ 8) % 256, num % 256)

/-- Precomputed palette table `COLOR_RGB`. -/
def COLOR_RGB : List (String × (ℕ × ℕ × ℕ)) :=
  COLORS.map fun col => (col, parseHexColor col)

/-- Translation of `getRGB(colorStr) = COLOR_RGB[colorStr] || parseHexColor(colorStr)`. -/
def getRGB (colorStr : String) : ℕ × ℕ × ℕ :=
  (COLOR_RGB.lookup colorStr).getD (parseHexColor colorStr)

/-- Translation of `rgbToHex(r, g, b)`: hex string of `(1 << 24) + (r << 16) +
(g << 8) + b` with the leading `1` sliced off (`Nat.toDigits` produces the
same lowercase digits as `Number.toString(16)`). -/
def rgbToHex (r g b : ℕ) : String :=
  "#" ++ String.mk ((Nat.toDigits 16 (2 ^ 24 + r * 2 ^ 16 + g * 2 ^ 8 + b)).drop 1)

/-- Particle state: position, velocity, radius, colour and fade state,
exactly the fields set by the `Particle` constructor. -/
structure Particle where
  x : ℚ
  y : ℚ
  vx : ℚ
  vy : ℚ
  radius : ℚ
  color : String
  prevColor : String
  fadeProgress : ℚ
deriving DecidableEq

/-- JS `| 0` truncation toward zero.  The `ToInt32` wrap-around is omitted:
every use site feeds blended colour channels, which lie in `[0, 255]`. -/
def jsTrunc (q : ℚ) : ℤ :=
  if 0 ≤ q then Rat.floor q else -Rat.floor (-q)

/-- Translation of `Particle.prototype._blendRGB`. -/
def Particle.blendRGB (p : Particle) : ℚ × ℚ × ℚ :=
  let c1 := getRGB p.prevColor
  let c2 := getRGB p.color
  ((c1.1 : ℚ) + ((c2.1 : ℚ) - (c1.1 : ℚ)) * p.fadeProgress,
   (c1.2.1 : ℚ) + ((c2.2.1 : ℚ) - (c1.2.1 : ℚ)) * p.fadeProgress,
   (c1.2.2 : ℚ) + ((c2.2.2 : ℚ) - (c1.2.2 : ℚ)) * p.fadeProgress)

/-- Translation of `Particle.prototype.startFade(newColor)`. -/
def Particle.startFade (p : Particle) (newColor : String) : Particle :=
  if newColor = p.color ∧ p.fadeProgress = 1 then p
  else
    let prev :=
      if p.fadeProgress < 1 then
        let cur := p.blendRGB
        rgbToHex (jsTrunc cur.1).toNat (jsTrunc cur.2.1).toNat (jsTrunc cur.2.2).toNat
      else p.color
    { p with prevColor := prev, color := newColor, fadeProgress := 0 }

/-- Effective display colour, from `Particle.prototype.draw`: the colour
string when the fade has settled, otherwise the interpolated rgb string. -/
def Particle.displayFill (p : Particle) : String :=
  if p.fadeProgress = 1 then p.color
  else
    let cur := p.blendRGB
    "rgb(" ++ toString (jsTrunc cur.1) ++ "," ++ toString (jsTrunc cur.2.1) ++
      "," ++ toString (jsTrunc cur.2.2) ++ ")"

/-- Velocity integration, the first two lines of `Particle.prototype.update`. -/
def Particle.integrate (p : Particle) (dt : ℚ) : Particle :=
  { p with x := p.x + p.vx * dt, y := p.y + p.vy * dt }

/-- The x-axis wall check of `Particle.prototype.update` (`canvas.width = W`). -/
def wallCheckX (p : Particle) (W : ℚ) : Particle :=
  if p.x - p.radius < 0 then { p with x := p.radius, vx := -p.vx }
  else if W < p.x + p.radius then { p with x := W - p.radius, vx := -p.vx }
  else p

/-- The y-axis wall check of `Particle.prototype.update` (`canvas.height = H`). -/
def wallCheckY (p : Particle) (H : ℚ) : Particle :=
  if p.y - p.radius < 0 then { p with y := p.radius, vy := -p.vy }
  else if H < p.y + p.radius then { p with y := H - p.radius, vy := -p.vy }
  else p

/-- The fade-progression tail of `Particle.prototype.update`. -/
def fadeStep (p : Particle) (dt fadeTime : ℚ) : Particle :=
  if p.fadeProgress < 1 then
    let f := p.fadeProgress + dt / fadeTime
    { p with fadeProgress := if 1 < f then 1 else f }
  else p

/-- Translation of `Particle.prototype.update(dt)`: integrate, x-axis wall
check, y-axis wall check, fade progression.  The canvas bounds and
`FADE_TIME` globals are passed explicitly. -/
def Particle.update (p : Particle) (dt W H fadeTime : ℚ) : Particle :=
  fadeStep (wallCheckY (wallCheckX (p.integrate dt) W) H) dt fadeTime

/-- The (positive) overlap `minDist - dist` computed by `resolveCollision`. -/
def overlapOf (p1 p2 : Particle) (dist : ℚ) : ℚ :=
  p1.radius + p2.radius - dist

/-- Translation of `resolveCollision(p1, p2)`.  `dist` stands for
`Math.hypot(dx, dy)`; theorems characterise it by `0 ≤ dist` and
`dist * dist = dx ^ 2 + dy ^ 2`.  Returns the pair of updated particles. -/
def resolveCollision (p1 p2 : Particle) (dist : ℚ) : Particle × Particle :=
  let dx := p2.x - p1.x
  let dy := p2.y - p1.y
  let minDist := p1.radius + p2.radius
  if minDist ≤ dist ∨ dist = 0 then (p1, p2)
  else
    let nx := dx / dist
    let ny := dy / dist
    let overlap := minDist - dist
    let tx := -ny
    let ty := nx
    let v1n := p1.vx * nx + p1.vy * ny
    let v1t := p1.vx * tx + p1.vy * ty
    let v2n := p2.vx * nx + p2.vy * ny
    let v2t := p2.vx * tx + p2.vy * ty
    let q1 := { p1 with
      x := p1.x - nx * overlap / 2, y := p1.y - ny * overlap / 2,
      vx := v2n * nx + v1t * tx, vy := v2n * ny + v1t * ty }
    let q2 := { p2 with
      x := p2.x + nx * overlap / 2, y := p2.y + ny * overlap / 2,
      vx := v1n * nx + v2t * tx, vy := v1n * ny + v2t * ty }
    if p1.color ≠ p2.color then
      if dominatesColor p1.color p2.color then (q1, q2.startFade p1.color)
      else if dominatesColor p2.color p1.color then (q1.startFade p2.color, q2)
      else (q1, q2)
    else (q1, q2)

/-- The local `nx = dx / dist` of `resolveCollision`. -/
def rcNx (p1 p2 : Particle) (dist : ℚ) : ℚ := (p2.x - p1.x) / dist

/-- The local `ny = dy / dist` of `resolveCollision`. -/
def rcNy (p1 p2 : Particle) (dist : ℚ) : ℚ := (p2.y - p1.y) / dist

/-- The local `v1n` of `resolveCollision` (normal component of `p1`'s velocity). -/
def rcV1n (p1 p2 : Particle) (dist : ℚ) : ℚ :=
  p1.vx * rcNx p1 p2 dist + p1.vy * rcNy p1 p2 dist

/-- The local `v1t` of `resolveCollision` (tangential component, `tx = -ny`, `ty = nx`). -/
def rcV1t (p1 p2 : Particle) (dist : ℚ) : ℚ :=
  p1.vx * -rcNy p1 p2 dist + p1.vy * rcNx p1 p2 dist

/-- The local `v2n` of `resolveCollision`. -/
def rcV2n (p1 p2 : Particle) (dist : ℚ) : ℚ :=
  p2.vx * rcNx p1 p2 dist + p2.vy * rcNy p1 p2 dist

/-- The local `v2t` of `resolveCollision`. -/
def rcV2t (p1 p2 : Particle) (dist : ℚ) : ℚ :=
  p2.vx * -rcNy p1 p2 dist + p2.vy * rcNx p1 p2 dist

/-- The `while (spawnAccumulator >= 1)` drain loop of `animate`: one spawned
particle per unit consumed.  The loop subtracts 1 until the accumulator drops
below 1, so it spawns `⌊acc⌋` particles and leaves `acc - ⌊acc⌋`; the lemma
`drainAccumulator_rec` below re-derives the loop recurrence. -/
def drainAccumulator (acc : ℚ) : ℕ × ℚ :=
  if 1 ≤ acc then ((Rat.floor acc).toNat, acc - (Rat.floor acc : ℚ)) else (0, acc)

/-- One frame of the continuous-spawn logic of `animate`: when the pointer is
down, add `spawnRate * dt` to the accumulator and drain it.  Returns the
number of particles spawned this frame and the new accumulator. -/
def spawnFrame (isPointerDown : Bool) (rate dt acc : ℚ) : ℕ × ℚ :=
  if isPointerDown then drainAccumulator (acc + rate * dt) else (0, acc)

/-- Running total of `spawnFrame` over a list of frame times. -/
def spawnRun (isPointerDown : Bool) (rate : ℚ) (dts : List ℚ) : ℕ × ℚ :=
  dts.foldl
    (fun st dt =>
      let r := spawnFrame isPointerDown rate dt st.2
      (st.1 + r.1, r.2))
    (0, 0)

/-- Grid cell of a position: `(Math.floor(x / CELL_SIZE), Math.floor(y / CELL_SIZE))`. -/
def cellOf (cellSize x y : ℚ) : ℤ × ℤ :=
  (Rat.floor (x / cellSize), Rat.floor (y / cellSize))

/-- Inhabitant used for out-of-range list indexing (never reached on the
index ranges the theorems quantify over). -/
def defaultParticle : Particle :=
  { x := 0, y := 0, vx := 0, vy := 0, radius := 0,
    color := "", prevColor := "", fadeProgress := 1 }

/-- Cell of the `i`-th particle of the array. -/
def cellOfIdx (ps : List Particle) (cellSize : ℚ) (i : ℕ) : ℤ × ℤ :=
  cellOf cellSize (ps.getD i defaultParticle).x (ps.getD i defaultParticle).y

/-- The frame grid: association list from cell key to the bucket of particle
indices, in `Map` insertion order. -/
abbrev Grid := List ((ℤ × ℤ) × List ℕ)

/-- Model of `grid.get(key).push(i)` preceded by `if (!grid.has(key))
grid.set(key, [])`: append `i` to the first entry keyed `k`, or add a new
entry at the end. -/
def insertPart (g : Grid) (k : ℤ × ℤ) (i : ℕ) : Grid :=
  match g with
  | [] => [(k, [i])]
  | kb :: rest =>
    if kb.1 = k then (kb.1, kb.2 ++ [i]) :: rest else kb :: insertPart rest k i

/-- The grid-building loop of `animate`, iterating over particle indices. -/
def buildGridAux (ps : List Particle) (cellSize : ℚ) : List ℕ → Grid → Grid
  | [], g => g
  | i :: is, g =>
    buildGridAux ps cellSize is
      (insertPart g (cellOfIdx ps cellSize i) i)

/-- The per-frame grid rebuild over all particle indices. -/
def buildGrid (ps : List Particle) (cellSize : ℚ) : Grid :=
  buildGridAux ps cellSize (List.range ps.length) []

/-- Model of `grid.get(key)` / `grid.has(key)`. -/
def lookupCell : Grid → ℤ × ℤ → Option (List ℕ)
  | [], _ => none
  | kb :: rest, k => if kb.1 = k then some kb.2 else lookupCell rest k

/-- Same-bucket enumeration with `b > a`: all pairs of distinct positions of
the bucket, each unordered pair of entries once. -/
def pairsInBucket : List ℕ → List (ℕ × ℕ)
  | [] => []
  | a :: rest => (rest.map fun b => (a, b)) ++ pairsInBucket rest

/-- Distinct-bucket enumeration: the full cross product. -/
def crossPairs (b1 b2 : List ℕ) : List (ℕ × ℕ) :=
  b1.flatMap fun a => b2.map fun b => (a, b)

/-- The `NEIGHBOR_OFFSETS` constant: self, right, below, below-right,
below-left. -/
def NEIGHBOR_OFFSETS : List (ℤ × ℤ) :=
  [(0, 0), (1, 0), (0, 1), (1, 1), (-1, 1)]

/-- Pairs emitted while visiting one grid entry: for each neighbour offset,
skip absent cells, use the `b > a` enumeration when the neighbour is the same
`Map` entry (the `neighborBucket === bucket` identity test, which for a `Map`
holds exactly when the keys coincide), and the cross product otherwise. -/
def cellPairs (table : Grid) (kb : (ℤ × ℤ) × List ℕ) : List (ℕ × ℕ) :=
  NEIGHBOR_OFFSETS.flatMap fun d =>
    match lookupCell table (kb.1.1 + d.1, kb.1.2 + d.2) with
    | none => []
    | some nb =>
      if (kb.1.1 + d.1, kb.1.2 + d.2) = kb.1 then pairsInBucket kb.2
      else crossPairs kb.2 nb

/-- The collision-resolution traversal of `animate`: the sequence of index
pairs on which `resolveCollision` is invoked. -/
def forEachCandidatePair (g : Grid) : List (ℕ × ℕ) :=
  g.flatMap (cellPairs g)

/-- Pairs emitted for a particle configuration. -/
def emittedPairs (ps : List Particle) (cellSize : ℚ) : List (ℕ × ℕ) :=
  forEachCandidatePair (buildGrid ps cellSize)

/-- Number of times the unordered pair `{i, j}` occurs in an emission list. -/
def pairCount (L : List (ℕ × ℕ)) (i j : ℕ) : ℕ :=
  L.countP fun q => decide ((q.1 = i ∧ q.2 = j) ∨ (q.1 = j ∧ q.2 = i))

/-- Chebyshev distance between two cells. -/
def chebDist (a b : ℤ × ℤ) : ℤ :=
  max |a.1 - b.1| |a.2 - b.2|

/-- Keys of the grid, in insertion order. -/
def gridKeys (g : Grid) : List (ℤ × ℤ) :=
  g.map Prod.fst

/-- Multiplicity of index `i` in the bucket at key `k` (0 for absent cells). -/
def bucketCount (g : Grid) (k : ℤ × ℤ) (i : ℕ) : ℕ :=
  ((lookupCell g k).getD []).count i

/-- Total multiplicity of index `i` over all buckets of the grid. -/
def countIn (g : Grid) (i : ℕ) : ℕ :=
  (g.map fun kb => kb.2.count i).sum

/-- Number of times the traversal visits the unordered cell pair
`{ci, cj}`: once for the self offset when the cells coincide, and once per
non-self neighbour offset matching the cells in either orientation. -/
def neighborIndicator (ci cj : ℤ × ℤ) : ℕ :=
  (if ci = cj then 1 else 0) +
    (((NEIGHBOR_OFFSETS.drop 1).map fun d =>
        (if (ci.1 + d.1, ci.2 + d.2) = cj then 1 else 0) +
          (if (cj.1 + d.1, cj.2 + d.2) = ci then 1 else 0)).sum)

/-! Helper lemmas: `startFade` only touches the colour fields, the wall checks
only touch their own axis, `fadeStep` only touches `fadeProgress`. -/

@[simp]
theorem startFade_x (p : Particle) (c : String) : (p.startFade c).x = p.x := by
  unfold Particle.startFade; split <;> rfl

@[simp]
theorem startFade_y (p : Particle) (c : String) : (p.startFade c).y = p.y := by
  unfold Particle.startFade; split <;> rfl

@[simp]
theorem startFade_vx (p : Particle) (c : String) : (p.startFade c).vx = p.vx := by
  unfold Particle.startFade; split <;> rfl

@[simp]
theorem startFade_vy (p : Particle) (c : String) : (p.startFade c).vy = p.vy := by
  unfold Particle.startFade; split <;> rfl

@[simp]
theorem startFade_radius (p : Particle) (c : String) : (p.startFade c).radius = p.radius := by
  unfold Particle.startFade; split <;> rfl

@[simp]
theorem wallCheckX_y (p : Particle) (W : ℚ) : (wallCheckX p W).y = p.y := by
  unfold wallCheckX; split_ifs <;> rfl

@[simp]
theorem wallCheckX_radius (p : Particle) (W : ℚ) : (wallCheckX p W).radius = p.radius := by
  unfold wallCheckX; split_ifs <;> rfl

@[simp]
theorem wallCheckX_fade (p : Particle) (W : ℚ) :
    (wallCheckX p W).fadeProgress = p.fadeProgress := by
  unfold wallCheckX; split_ifs <;> rfl

@[simp]
theorem wallCheckX_color (p : Particle) (W : ℚ) : (wallCheckX p W).color = p.color := by
  unfold wallCheckX; split_ifs <;> rfl

@[simp]
theorem wallCheckY_x (p : Particle) (H : ℚ) : (wallCheckY p H).x = p.x := by
  unfold wallCheckY; split_ifs <;> rfl

@[simp]
theorem wallCheckY_radius (p : Particle) (H : ℚ) : (wallCheckY p H).radius = p.radius := by
  unfold wallCheckY; split_ifs <;> rfl

@[simp]
theorem wallCheckY_fade (p : Particle) (H : ℚ) :
    (wallCheckY p H).fadeProgress = p.fadeProgress := by
  unfold wallCheckY; split_ifs <;> rfl

@[simp]
theorem wallCheckY_color (p : Particle) (H : ℚ) : (wallCheckY p H).color = p.color := by
  unfold wallCheckY; split_ifs <;> rfl

@[simp]
theorem fadeStep_x (p : Particle) (dt T : ℚ) : (fadeStep p dt T).x = p.x := by
  unfold fadeStep; split_ifs <;> rfl

@[simp]
theorem fadeStep_y (p : Particle) (dt T : ℚ) : (fadeStep p dt T).y = p.y := by
  unfold fadeStep; split_ifs <;> rfl

@[simp]
theorem fadeStep_radius (p : Particle) (dt T : ℚ) : (fadeStep p dt T).radius = p.radius := by
  unfold fadeStep; split_ifs <;> rfl

@[simp]
theorem fadeStep_color (p : Particle) (dt T : ℚ) : (fadeStep p dt T).color = p.color := by
  unfold fadeStep; split_ifs <;> rfl

/-- After one x-axis wall check the x position is clamped into
`[radius, W - radius]`, whatever the starting state, provided the particle
fits between the walls. -/
theorem wallCheckX_bounds (p : Particle) (W : ℚ) (h : 2 * p.radius ≤ W) :
    p.radius ≤ (wallCheckX p W).x ∧ (wallCheckX p W).x ≤ W - p.radius := by
  unfold wallCheckX
  split_ifs with h1 h2 <;> refine ⟨?_, ?_⟩ <;> dsimp only <;> linarith

/-- Analogue of `wallCheckX_bounds` for the y axis. -/
theorem wallCheckY_bounds (p : Particle) (H : ℚ) (h : 2 * p.radius ≤ H) :
    p.radius ≤ (wallCheckY p H).y ∧ (wallCheckY p H).y ≤ H - p.radius := by
  unfold wallCheckY
  split_ifs with h1 h2 <;> refine ⟨?_, ?_⟩ <;> dsimp only <;> linarith

/-- A particle whose x position already lies in `[radius, W - radius]` passes
the x-axis wall check unchanged. -/
theorem wallCheckX_eq_self (p : Particle) (W : ℚ)
    (h1 : p.radius ≤ p.x) (h2 : p.x ≤ W - p.radius) : wallCheckX p W = p := by
  unfold wallCheckX
  rw [if_neg (by linarith), if_neg (by linarith)]

/-- A particle whose y position already lies in `[radius, H - radius]` passes
the y-axis wall check unchanged. -/
theorem wallCheckY_eq_self (p : Particle) (H : ℚ)
    (h1 : p.radius ≤ p.y) (h2 : p.y ≤ H - p.radius) : wallCheckY p H = p := by
  unfold wallCheckY
  rw [if_neg (by linarith), if_neg (by linarith)]

/-- C3: a particle that starts within bounds (`radius ≤ x ≤ W - radius`,
`radius ≤ y ≤ H - radius`) is again within bounds after `update(dt)`, for
every `dt`. -/
theorem update_stays_in_bounds (p : Particle) (dt W H fadeTime : ℚ)
    (hx1 : p.radius ≤ p.x) (hx2 : p.x ≤ W - p.radius)
    (hy1 : p.radius ≤ p.y) (hy2 : p.y ≤ H - p.radius) :
    p.radius ≤ (p.update dt W H fadeTime).x ∧
      (p.update dt W H fadeTime).x ≤ W - p.radius ∧
      p.radius ≤ (p.update dt W H fadeTime).y ∧
      (p.update dt W H fadeTime).y ≤ H - p.radius := by
  have hW : 2 * p.radius ≤ W := by linarith
  have hH : 2 * p.radius ≤ H := by linarith
  have hrx : (p.integrate dt).radius = p.radius := rfl
  have hbx := wallCheckX_bounds (p.integrate dt) W (by rw [hrx]; exact hW)
  have hry : (wallCheckX (p.integrate dt) W).radius = p.radius := by
    rw [wallCheckX_radius]; exact hrx
  have hby := wallCheckY_bounds (wallCheckX (p.integrate dt) W) H (by rw [hry]; exact hH)
  rw [hrx] at hbx
  rw [hry] at hby
  unfold Particle.update
  rw [fadeStep_x, fadeStep_y, wallCheckY_x]
  exact ⟨hbx.1, hbx.2, hby.1, hby.2⟩

/-- Witness for `update_stays_in_bounds` at a concrete in-bounds particle. -/
theorem update_stays_in_bounds_witness :
    ((5 : ℚ) ≤ 10 ∧ (10 : ℚ) ≤ 100 - 5 ∧ (5 : ℚ) ≤ 20 ∧ (20 : ℚ) ≤ 50 - 5) ∧
      ((5 : ℚ) ≤
          (Particle.update
            { x := 10, y := 20, vx := -300, vy := 7, radius := 5,
              color := "#ff595e", prevColor := "#ff595e", fadeProgress := 1 }
            1 100 50 FADE_TIME).x ∧
        (Particle.update
            { x := 10, y := 20, vx := -300, vy := 7, radius := 5,
              color := "#ff595e", prevColor := "#ff595e", fadeProgress := 1 }
            1 100 50 FADE_TIME).x ≤ 100 - 5 ∧
        (5 : ℚ) ≤
          (Particle.update
            { x := 10, y := 20, vx := -300, vy := 7, radius := 5,
              color := "#ff595e", prevColor := "#ff595e", fadeProgress := 1 }
            1 100 50 FADE_TIME).y ∧
        (Particle.update
            { x := 10, y := 20, vx := -300, vy := 7, radius := 5,
              color := "#ff595e", prevColor := "#ff595e", fadeProgress := 1 }
            1 100 50 FADE_TIME).y ≤ 50 - 5) :=
  ⟨by norm_num,
   update_stays_in_bounds _ 1 100 50 FADE_TIME (by norm_num) (by norm_num)
     (by norm_num) (by norm_num)⟩

/-- C6: when the centers are at least `radius1 + radius2` apart, or coincide
(`dist = 0`), `resolveCollision` leaves both particles entirely unchanged. -/
theorem resolveCollision_skip (p1 p2 : Particle) (dist : ℚ)
    (h0 : 0 ≤ dist)
    (hd : dist * dist = (p2.x - p1.x) ^ 2 + (p2.y - p1.y) ^ 2)
    (hcase : p1.radius + p2.radius ≤ dist ∨ dist = 0) :
    resolveCollision p1 p2 dist = (p1, p2) := by
  unfold resolveCollision
  rw [if_pos hcase]

/-- Witness for `resolveCollision_skip`: two separated particles. -/
theorem resolveCollision_skip_witness :
    ((0 : ℚ) ≤ 10 ∧
        (10 : ℚ) * 10 =
          (({ defaultParticle with x := 10, radius := 3 } : Particle).x -
                ({ defaultParticle with radius := 3 } : Particle).x) ^ 2 +
            (({ defaultParticle with x := 10, radius := 3 } : Particle).y -
                ({ defaultParticle with radius := 3 } : Particle).y) ^ 2 ∧
        (({ defaultParticle with radius := 3 } : Particle).radius +
              ({ defaultParticle with x := 10, radius := 3 } : Particle).radius ≤ 10 ∨
          (10 : ℚ) = 0)) ∧
      resolveCollision { defaultParticle with radius := 3 }
          { defaultParticle with x := 10, radius := 3 } 10 =
        ({ defaultParticle with radius := 3 }, { defaultParticle with x := 10, radius := 3 }) :=
  ⟨⟨by norm_num, by with_unfolding_all decide, Or.inl (by with_unfolding_all decide)⟩,
   resolveCollision_skip _ _ 10 (by norm_num) (by with_unfolding_all decide)
     (Or.inl (by with_unfolding_all decide))⟩

/-- C9 counterexample: the x-axis wall check is not idempotent when the
particle does not fit between the walls (radius 10, width 5): the first
application clamps to the left wall, the second then triggers the right-wall
branch and changes both position and velocity again. -/
theorem wallCheck_idempotent_cex :
    wallCheckX
        (wallCheckX
          { x := 0, y := 0, vx := 1, vy := 0, radius := 10,
            color := "#ff595e", prevColor := "#ff595e", fadeProgress := 1 } 5) 5 ≠
      wallCheckX
        { x := 0, y := 0, vx := 1, vy := 0, radius := 10,
          color := "#ff595e", prevColor := "#ff595e", fadeProgress := 1 } 5 := by
  with_unfolding_all decide

/-- C9 amended: each single-axis wall check is idempotent for every particle
state that fits between the walls of that axis (`2 * radius ≤ bound`); the
source never spawns particles larger than the canvas, but the unrestricted
statement is false (`wallCheck_idempotent_cex`). -/
theorem wallCheck_idempotent (p : Particle) (W H : ℚ)
    (hW : 2 * p.radius ≤ W) (hH : 2 * p.radius ≤ H) :
    wallCheckX (wallCheckX p W) W = wallCheckX p W ∧
      wallCheckY (wallCheckY p H) H = wallCheckY p H := by
  constructor
  · have hb := wallCheckX_bounds p W hW
    exact wallCheckX_eq_self _ _ (by rw [wallCheckX_radius]; exact hb.1)
      (by rw [wallCheckX_radius]; exact hb.2)
  · have hb := wallCheckY_bounds p H hH
    exact wallCheckY_eq_self _ _ (by rw [wallCheckY_radius]; exact hb.1)
      (by rw [wallCheckY_radius]; exact hb.2)

/-- Witness for `wallCheck_idempotent` at a concrete state. -/
theorem wallCheck_idempotent_witness :
    ((2 : ℚ) * 10 ≤ 100 ∧ (2 : ℚ) * 10 ≤ 40) ∧
      (wallCheckX
          (wallCheckX
            { x := -3, y := 90, vx := 4, vy := -2, radius := 10,
              color := "#ff595e", prevColor := "#ff595e", fadeProgress := 1 } 100) 100 =
        wallCheckX
          { x := -3, y := 90, vx := 4, vy := -2, radius := 10,
            color := "#ff595e", prevColor := "#ff595e", fadeProgress := 1 } 100 ∧
      wallCheckY
          (wallCheckY
            { x := -3, y := 90, vx := 4, vy := -2, radius := 10,
              color := "#ff595e", prevColor := "#ff595e", fadeProgress := 1 } 40) 40 =
        wallCheckY
          { x := -3, y := 90, vx := 4, vy := -2, radius := 10,
            color := "#ff595e", prevColor := "#ff595e", fadeProgress := 1 } 40) :=
  ⟨by norm_num, wallCheck_idempotent _ 100 40 (by norm_num) (by norm_num)⟩

/-- Velocities produced by `resolveCollision` in the acting (overlap) case:
the normal components are swapped, the tangential ones kept, in every colour
branch (`startFade` never touches velocities). -/
theorem resolveCollision_act_vel (p1 p2 : Particle) (dist : ℚ)
    (hcond : ¬(p1.radius + p2.radius ≤ dist ∨ dist = 0)) :
    (resolveCollision p1 p2 dist).1.vx =
        rcV2n p1 p2 dist * rcNx p1 p2 dist + rcV1t p1 p2 dist * -rcNy p1 p2 dist ∧
      (resolveCollision p1 p2 dist).1.vy =
        rcV2n p1 p2 dist * rcNy p1 p2 dist + rcV1t p1 p2 dist * rcNx p1 p2 dist ∧
      (resolveCollision p1 p2 dist).2.vx =
        rcV1n p1 p2 dist * rcNx p1 p2 dist + rcV2t p1 p2 dist * -rcNy p1 p2 dist ∧
      (resolveCollision p1 p2 dist).2.vy =
        rcV1n p1 p2 dist * rcNy p1 p2 dist + rcV2t p1 p2 dist * rcNx p1 p2 dist := by
  unfold resolveCollision
  rw [if_neg hcond]
  split_ifs <;>
    refine ⟨?_, ?_, ?_, ?_⟩ <;>
    simp only [startFade_vx, startFade_vy] <;>
    rfl

/-- C2: on every pair on which `resolveCollision` acts (overlapping,
non-coincident centers), the vector sum of the two velocities is unchanged:
`vx1 + vx2` and `vy1 + vy2` are each preserved. -/
theorem resolve_momentum_conserved (p1 p2 : Particle) (dist : ℚ)
    (hpos : 0 < dist) (hlt : dist < p1.radius + p2.radius)
    (hd : dist * dist = (p2.x - p1.x) ^ 2 + (p2.y - p1.y) ^ 2) :
    (resolveCollision p1 p2 dist).1.vx + (resolveCollision p1 p2 dist).2.vx =
        p1.vx + p2.vx ∧
      (resolveCollision p1 p2 dist).1.vy + (resolveCollision p1 p2 dist).2.vy =
        p1.vy + p2.vy := by
  have hne : dist ≠ 0 := ne_of_gt hpos
  have hcond : ¬(p1.radius + p2.radius ≤ dist ∨ dist = 0) := by
    rintro (h | h)
    · exact absurd hlt (not_lt.mpr h)
    · exact hne h
  have hunit : rcNx p1 p2 dist ^ 2 + rcNy p1 p2 dist ^ 2 = 1 := by
    unfold rcNx rcNy
    field_simp
    first
      | linear_combination hd
      | linear_combination (-1 : ℚ) * hd
  obtain ⟨h1, h2, h3, h4⟩ := resolveCollision_act_vel p1 p2 dist hcond
  rw [h1, h2, h3, h4]
  unfold rcV1n rcV1t rcV2n rcV2t
  constructor
  · linear_combination (p1.vx + p2.vx) * hunit
  · linear_combination (p1.vy + p2.vy) * hunit

/-- Witness for `resolve_momentum_conserved`: centers `(0,0)` and `(3,4)`
(distance 5), radii 3 each. -/
theorem resolve_momentum_conserved_witness :
    ((0 : ℚ) < 5 ∧
        (5 : ℚ) <
          ({ defaultParticle with vx := 1, vy := 2, radius := 3 } : Particle).radius +
            ({ defaultParticle with x := 3, y := 4, vx := -3, vy := 5, radius := 3 } :
              Particle).radius ∧
        (5 : ℚ) * 5 =
          (({ defaultParticle with x := 3, y := 4, vx := -3, vy := 5, radius := 3 } :
                  Particle).x -
                ({ defaultParticle with vx := 1, vy := 2, radius := 3 } : Particle).x) ^ 2 +
            (({ defaultParticle with x := 3, y := 4, vx := -3, vy := 5, radius := 3 } :
                  Particle).y -
                ({ defaultParticle with vx := 1, vy := 2, radius := 3 } : Particle).y) ^ 2) ∧
      ((resolveCollision { defaultParticle with vx := 1, vy := 2, radius := 3 }
              { defaultParticle with x := 3, y := 4, vx := -3, vy := 5, radius := 3 } 5).1.vx +
            (resolveCollision { defaultParticle with vx := 1, vy := 2, radius := 3 }
              { defaultParticle with x := 3, y := 4, vx := -3, vy := 5, radius := 3 } 5).2.vx =
          ({ defaultParticle with vx := 1, vy := 2, radius := 3 } : Particle).vx +
            ({ defaultParticle with x := 3, y := 4, vx := -3, vy := 5, radius := 3 } :
              Particle).vx ∧
        (resolveCollision { defaultParticle with vx := 1, vy := 2, radius := 3 }
              { defaultParticle with x := 3, y := 4, vx := -3, vy := 5, radius := 3 } 5).1.vy +
            (resolveCollision { defaultParticle with vx := 1, vy := 2, radius := 3 }
              { defaultParticle with x := 3, y := 4, vx := -3, vy := 5, radius := 3 } 5).2.vy =
          ({ defaultParticle with vx := 1, vy := 2, radius := 3 } : Particle).vy +
            ({ defaultParticle with x := 3, y := 4, vx := -3, vy := 5, radius := 3 } :
              Particle).vy) :=
  ⟨⟨by norm_num, by with_unfolding_all decide, by with_unfolding_all decide⟩,
   resolve_momentum_conserved _ _ 5 (by norm_num) (by with_unfolding_all decide)
     (by with_unfolding_all decide)⟩

/-- C4: the concrete scenario — radii 5 and 5, centers `(0,0)` and `(8,0)`,
velocities `(10,0)` and `(-10,0)` (center distance 8, as
`8 * 8 = (8-0)^2 + (0-0)^2`): one `resolveCollision` call gives overlap 2,
centers `(-1,0)` and `(9,0)`, and velocities `(-10,0)` and `(10,0)`. -/
theorem resolveCollision_scenario :
    ((0 : ℚ) ≤ 8 ∧
        (8 : ℚ) * 8 = ((8 : ℚ) - 0) ^ 2 + ((0 : ℚ) - 0) ^ 2) ∧
      overlapOf
          { x := 0, y := 0, vx := 10, vy := 0, radius := 5,
            color := "#ff595e", prevColor := "#ff595e", fadeProgress := 1 }
          { x := 8, y := 0, vx := -10, vy := 0, radius := 5,
            color := "#ff595e", prevColor := "#ff595e", fadeProgress := 1 } 8 = 2 ∧
      resolveCollision
          { x := 0, y := 0, vx := 10, vy := 0, radius := 5,
            color := "#ff595e", prevColor := "#ff595e", fadeProgress := 1 }
          { x := 8, y := 0, vx := -10, vy := 0, radius := 5,
            color := "#ff595e", prevColor := "#ff595e", fadeProgress := 1 } 8 =
        ({ x := -1, y := 0, vx := -10, vy := 0, radius := 5,
            color := "#ff595e", prevColor := "#ff595e", fadeProgress := 1 },
         { x := 9, y := 0, vx := 10, vy := 0, radius := 5,
            color := "#ff595e", prevColor := "#ff595e", fadeProgress := 1 }) := by
  refine ⟨⟨by norm_num, by norm_num⟩, ?_, ?_⟩
  · with_unfolding_all decide
  · with_unfolding_all decide


/-- Colour after `startFade`: always the new colour. -/
@[simp]
theorem startFade_color (p : Particle) (c : String) : (p.startFade c).color = c := by
  unfold Particle.startFade
  split_ifs with h h2
  · exact h.1.symm
  · rfl
  · rfl

/-- Fade progress after `startFade` never exceeds 1. -/
theorem startFade_fade_le_one (p : Particle) (c : String) :
    (p.startFade c).fadeProgress ≤ 1 := by
  unfold Particle.startFade
  split_ifs with h h2
  · exact le_of_eq h.2
  · dsimp only; norm_num
  · dsimp only; norm_num

/-- A frame update never changes the particle colour. -/
@[simp]
theorem update_color (p : Particle) (dt W H T : ℚ) :
    (p.update dt W H T).color = p.color := by
  unfold Particle.update
  rw [fadeStep_color, wallCheckY_color, wallCheckX_color]
  rfl

/-- Fade progression of a frame update, isolated from the kinematics. -/
theorem update_fadeProgress (p : Particle) (dt W H T : ℚ) :
    (p.update dt W H T).fadeProgress =
      if p.fadeProgress < 1 then
        if 1 < p.fadeProgress + dt / T then 1 else p.fadeProgress + dt / T
      else p.fadeProgress := by
  have hf : (wallCheckY (wallCheckX (p.integrate dt) W) H).fadeProgress = p.fadeProgress := by
    rw [wallCheckY_fade, wallCheckX_fade]; rfl
  unfold Particle.update fadeStep
  dsimp only
  rw [hf]
  by_cases h1 : p.fadeProgress < 1
  · rw [if_pos h1, if_pos h1]
  · rw [if_neg h1, if_neg h1]
    exact hf

/-- Invariant for the fade progression: a particle whose fade progress is at
most 1 and at least `1 - (remaining time) / T` (or already settled) ends the
frame sequence settled, with its colour untouched. -/
theorem fade_fold_settles (c : String) (T W H : ℚ) (dts : List ℚ) :
    ∀ s : Particle, s.color = c → s.fadeProgress ≤ 1 →
      (1 - dts.sum / T ≤ s.fadeProgress ∨ s.fadeProgress = 1) →
      ((dts.foldl (fun q dt => q.update dt W H T) s).color = c ∧
        (dts.foldl (fun q dt => q.update dt W H T) s).fadeProgress = 1) := by
  induction dts with
  | nil =>
    intro s hc hle hinv
    refine ⟨hc, ?_⟩
    rcases hinv with h | h
    · simp only [List.sum_nil, zero_div, sub_zero] at h
      exact le_antisymm hle h
    · exact h
  | cons dt rest ih =>
    intro s hc hle hinv
    simp only [List.foldl_cons]
    apply ih
    · rw [update_color]; exact hc
    · rw [update_fadeProgress]
      split_ifs with h1 h2 <;> linarith
    · rw [update_fadeProgress]
      rcases hinv with h | h
      · split_ifs with h1 h2
        · right; rfl
        · left
          simp only [List.sum_cons] at h
          have hdiv : (dt + rest.sum) / T = dt / T + rest.sum / T := add_div _ _ _
          rw [hdiv] at h
          linarith
        · right
          exact le_antisymm hle (not_lt.mp h1)
      · rw [if_neg (by rw [h]; exact lt_irrefl 1)]
        right; exact h

/-- C7: after `startFade(newColor)` with fade time `T > 0`, once the
subsequent frame times sum to at least `T`, the fade progress is exactly 1
and the effective display colour is exactly `newColor`. -/
theorem fade_convergence (p : Particle) (newColor : String) (T W H : ℚ)
    (dts : List ℚ) (hT : 0 < T) (hsum : T ≤ dts.sum) :
    (dts.foldl (fun q dt => q.update dt W H T) (p.startFade newColor)).fadeProgress = 1 ∧
      (dts.foldl (fun q dt => q.update dt W H T) (p.startFade newColor)).displayFill =
        newColor := by
  have hsub : 1 - dts.sum / T ≤ 0 := by
    have h1 : (1 : ℚ) ≤ dts.sum / T := (one_le_div hT).mpr hsum
    linarith
  have hinv : 1 - dts.sum / T ≤ (p.startFade newColor).fadeProgress ∨
      (p.startFade newColor).fadeProgress = 1 := by
    unfold Particle.startFade
    split_ifs with h h2
    · right; exact h.2
    · left; dsimp only; linarith
    · left; dsimp only; linarith
  have hmain := fade_fold_settles newColor T W H dts (p.startFade newColor)
    (startFade_color p newColor) (startFade_fade_le_one p newColor) hinv
  refine ⟨hmain.2, ?_⟩
  unfold Particle.displayFill
  rw [if_pos hmain.2]
  exact hmain.1

/-- Witness for `fade_convergence`: one frame of length `0.15 = FADE_TIME`. -/
theorem fade_convergence_witness :
    ((0 : ℚ) < FADE_TIME ∧ FADE_TIME ≤ ([(3 : ℚ) / 20] : List ℚ).sum) ∧
      ((([(3 : ℚ) / 20] : List ℚ).foldl (fun q dt => q.update dt 100 100 FADE_TIME)
            (Particle.startFade
              { defaultParticle with color := "#ff595e", prevColor := "#ff595e" }
              "#ffca3a")).fadeProgress = 1 ∧
        (([(3 : ℚ) / 20] : List ℚ).foldl (fun q dt => q.update dt 100 100 FADE_TIME)
            (Particle.startFade
              { defaultParticle with color := "#ff595e", prevColor := "#ff595e" }
              "#ffca3a")).displayFill = "#ffca3a") :=
  ⟨⟨by norm_num [FADE_TIME], by norm_num [FADE_TIME]⟩,
   fade_convergence _ "#ffca3a" FADE_TIME 100 100 _ (by norm_num [FADE_TIME])
     (by norm_num [FADE_TIME])⟩


/-- Executable `Rat.floor` agrees with the ambient `Int.floor` on `ℚ`. -/
theorem rat_floor_eq_int_floor (q : ℚ) : Rat.floor q = ⌊q⌋ := by
  rw [Rat.floor_def', ← Rat.floor_def]

/-- The closed form of `drainAccumulator` satisfies the recurrence of the
source loop `while (acc >= 1) { spawn(); acc -= 1 }`: one spawn and a unit
decrement per iteration, stopping below 1. -/
theorem drainAccumulator_rec (acc : ℚ) :
    drainAccumulator acc =
      if 1 ≤ acc then
        ((drainAccumulator (acc - 1)).1 + 1, (drainAccumulator (acc - 1)).2)
      else (0, acc) := by
  unfold drainAccumulator
  split_ifs with h h2
  · have hfl : ⌊acc - 1⌋ = ⌊acc⌋ - 1 := by simpa using Int.floor_sub_int acc 1
    have hfl1 : (1 : ℤ) ≤ ⌊acc⌋ := Int.le_floor.mpr (by exact_mod_cast h)
    rw [rat_floor_eq_int_floor, rat_floor_eq_int_floor, hfl]
    dsimp only
    simp only [Prod.mk.injEq]
    constructor
    · omega
    · push_cast; ring
  · have hfl : ⌊acc⌋ = 1 :=
      Int.floor_eq_iff.mpr ⟨by exact_mod_cast h, by push_cast; linarith [not_le.mp h2]⟩
    rw [rat_floor_eq_int_floor, hfl]
    dsimp only
    simp only [Prod.mk.injEq]
    constructor
    · rfl
    · push_cast; ring
  · rfl

set_option maxRecDepth 10000 in
/-- C8: with spawn rate 200, accumulator starting at 0 and the pointer held,
100 frames of `dt = 0.01` spawn exactly 200 particles (and leave the
accumulator at 0: no drift). -/
theorem spawn_accumulator_exact :
    (spawnRun true 200 (List.replicate 100 ((1 : ℚ) / 100))).1 = 200 ∧
      (spawnRun true 200 (List.replicate 100 ((1 : ℚ) / 100))).2 = 0 := by
  with_unfolding_all decide

/-- Characterisation of `colorIndexMap`: it returns index `i` exactly when
the palette has the queried colour at position `i`. -/
theorem colorIndexMap_eq_some (s : String) (i : ℕ) :
    colorIndexMap s = some i ↔ COLORS[i]? = some s := by
  unfold colorIndexMap COLORS
  rcases i with _ | _ | _ | _ | _ | i <;> split_ifs <;>
    simp_all [eq_comm, List.getElem?_cons_succ, List.getElem?_cons_zero, List.getElem?_nil]

/-- C5: `dominatesColor a b` is true exactly when `a` and `b` are palette
entries with `index b = (index a + 1) mod N`; in particular the last palette
colour dominates the first, non-adjacent colours do not dominate, and
identifiers outside the palette never dominate (and are never dominated),
without error. -/
theorem dominatesColor_spec :
    (∀ a b : String, dominatesColor a b = true ↔
        ∃ i : ℕ, COLORS[i]? = some a ∧ COLORS[(i + 1) % COLORS.length]? = some b) ∧
      dominatesColor "#6a4c93" "#ff595e" = true ∧
      dominatesColor "#ff595e" "#8ac926" = false ∧
      ∀ a b : String, a ∉ COLORS →
        dominatesColor a b = false ∧ dominatesColor b a = false := by
  have hlen : COLOR_ORDER.length = COLORS.length := rfl
  have hmain : ∀ a b : String, dominatesColor a b = true ↔
      ∃ i : ℕ, COLORS[i]? = some a ∧ COLORS[(i + 1) % COLORS.length]? = some b := by
    intro a b
    constructor
    · intro h
      rcases hma : colorIndexMap a with _ | ia <;>
        rcases hmb : colorIndexMap b with _ | ib <;>
        simp only [dominatesColor, hma, hmb, beq_iff_eq, reduceCtorEq] at h
      rw [hlen] at h
      exact ⟨ia, (colorIndexMap_eq_some a ia).mp hma,
        by rw [← h]; exact (colorIndexMap_eq_some b ib).mp hmb⟩
    · rintro ⟨i, h1, h2⟩
      have hma := (colorIndexMap_eq_some a i).mpr h1
      have hmb := (colorIndexMap_eq_some b _).mpr h2
      unfold dominatesColor
      rw [hma, hmb]
      simp [COLOR_ORDER]
  refine ⟨hmain, by decide, by decide, ?_⟩
  intro a b ha
  constructor
  · cases hab : dominatesColor a b
    · rfl
    · obtain ⟨i, h1, h2⟩ := (hmain a b).mp hab
      exact absurd (List.getElem?_mem h1) ha
  · cases hba : dominatesColor b a
    · rfl
    · obtain ⟨i, h1, h2⟩ := (hmain b a).mp hba
      exact absurd (List.getElem?_mem h2) ha

/-- Witness for `dominatesColor_spec`: adjacent palette colours dominate;
an unknown identifier does not. -/
theorem dominatesColor_spec_witness :
    dominatesColor "#ff595e" "#ffca3a" = true ∧
      "zzz" ∉ COLORS ∧ dominatesColor "zzz" "#ff595e" = false :=
  ⟨(dominatesColor_spec.1 "#ff595e" "#ffca3a").mpr ⟨0, by decide, by decide⟩,
   by decide,
   (dominatesColor_spec.2.2.2 "zzz" "#ff595e" (by decide)).1⟩


theorem lookupCell_insertPart (g : Grid) (k : ℤ × ℤ) (i : ℕ) (k' : ℤ × ℤ) :
    lookupCell (insertPart g k i) k' =
      if k' = k then some (((lookupCell g k).getD []) ++ [i]) else lookupCell g k' := by
  induction g with
  | nil =>
    unfold insertPart lookupCell
    split_ifs with h1 h2 <;> simp_all [lookupCell, eq_comm]
  | cons kb rest ih =>
    unfold insertPart
    by_cases hk : kb.1 = k <;> by_cases hk' : k' = k <;> by_cases hkk' : kb.1 = k' <;>
      simp_all [lookupCell]


theorem gridKeys_insertPart (g : Grid) (k : ℤ × ℤ) (i : ℕ) :
    gridKeys (insertPart g k i) =
      if k ∈ gridKeys g then gridKeys g else gridKeys g ++ [k] := by
  induction g with
  | nil => simp [insertPart, gridKeys]
  | cons kb rest ih =>
    unfold insertPart
    by_cases hk : kb.1 = k
    · rw [if_pos hk]
      simp [gridKeys, hk]
    · rw [if_neg hk]
      simp only [gridKeys, List.map_cons] at *
      rw [ih]
      have hmc : (k ∈ kb.1 :: List.map Prod.fst rest) ↔ k ∈ List.map Prod.fst rest := by
        simp only [List.mem_cons, or_iff_right_iff_imp]
        intro hc
        exact absurd hc.symm hk
      by_cases hmem : k ∈ List.map Prod.fst rest <;> simp [hmem, hmc]

theorem nodup_gridKeys_insertPart (g : Grid) (k : ℤ × ℤ) (i : ℕ)
    (h : (gridKeys g).Nodup) : (gridKeys (insertPart g k i)).Nodup := by
  rw [gridKeys_insertPart]
  split_ifs with hmem
  · exact h
  · simp [List.nodup_append, h, hmem]

theorem bucketCount_insertPart (g : Grid) (k : ℤ × ℤ) (i : ℕ) (k' : ℤ × ℤ) (j : ℕ) :
    bucketCount (insertPart g k i) k' j =
      bucketCount g k' j + if k' = k ∧ j = i then 1 else 0 := by
  unfold bucketCount
  rw [lookupCell_insertPart]
  by_cases hk : k' = k
  · subst hk
    rcases h : lookupCell g k' with _ | b <;>
      · simp only [h, if_pos rfl, Option.getD_some, Option.getD_none, List.nil_append,
          List.count_append, true_and]
        by_cases hj : j = i <;>
          simp [hj, List.count_cons, List.count_nil]
  · simp [hk]

theorem countIn_insertPart (g : Grid) (k : ℤ × ℤ) (i : ℕ) (j : ℕ) :
    countIn (insertPart g k i) j = countIn g j + if j = i then 1 else 0 := by
  induction g with
  | nil =>
    simp only [insertPart, countIn, List.map_cons, List.map_nil, List.sum_cons, List.sum_nil]
    by_cases hj : j = i <;> simp [hj, List.count_cons, List.count_nil]
  | cons kb rest ih =>
    unfold insertPart
    by_cases hk : kb.1 = k
    · rw [if_pos hk]
      simp only [countIn, List.map_cons, List.sum_cons, List.count_append]
      by_cases hj : j = i <;> simp [hj, List.count_cons, List.count_nil] <;> ring
    · rw [if_neg hk]
      simp only [countIn, List.map_cons, List.sum_cons] at *
      rw [ih]
      ring

theorem insertPart_entry_prop (P : ℤ × ℤ → ℕ → Prop) (g : Grid) (k : ℤ × ℤ) (i : ℕ)
    (hg : ∀ kb ∈ g, ∀ j ∈ kb.2, P kb.1 j) (hki : P k i) :
    ∀ kb ∈ insertPart g k i, ∀ j ∈ kb.2, P kb.1 j := by
  induction g with
  | nil =>
    intro kb hkb j hj
    simp only [insertPart, List.mem_singleton] at hkb
    subst hkb
    simp only [List.mem_singleton] at hj
    rw [hj]
    exact hki
  | cons kb0 rest ih =>
    intro kb hkb j hj
    unfold insertPart at hkb
    by_cases hk : kb0.1 = k
    · rw [if_pos hk] at hkb
      rcases List.mem_cons.mp hkb with h | h
      · subst h
        dsimp only at hj
        rcases List.mem_append.mp hj with h2 | h2
        · exact hg kb0 (List.mem_cons_self _ _) j h2
        · simp at h2
          rw [h2, hk]
          exact hki
      · exact hg kb (List.mem_cons_of_mem _ h) j hj
    · rw [if_neg hk] at hkb
      rcases List.mem_cons.mp hkb with h | h
      · subst h
        exact hg kb (List.mem_cons_self _ _) j hj
      · exact ih (fun kb2 hkb2 => hg kb2 (List.mem_cons_of_mem _ hkb2)) kb h j hj

theorem insertPart_nonempty (g : Grid) (k : ℤ × ℤ) (i : ℕ)
    (hg : ∀ kb ∈ g, kb.2 ≠ []) :
    ∀ kb ∈ insertPart g k i, kb.2 ≠ [] := by
  induction g with
  | nil =>
    intro kb hkb
    simp only [insertPart, List.mem_singleton] at hkb
    subst hkb
    simp
  | cons kb0 rest ih =>
    intro kb hkb
    unfold insertPart at hkb
    by_cases hk : kb0.1 = k
    · rw [if_pos hk] at hkb
      rcases List.mem_cons.mp hkb with h | h
      · rw [h]; simp
      · exact hg kb (List.mem_cons_of_mem _ h)
    · rw [if_neg hk] at hkb
      rcases List.mem_cons.mp hkb with h | h
      · rw [h]; exact hg kb0 (List.mem_cons_self _ _)
      · exact ih (fun kb2 hkb2 => hg kb2 (List.mem_cons_of_mem _ hkb2)) kb h

theorem nodup_gridKeys_buildGridAux (ps : List Particle) (c : ℚ) (is : List ℕ) :
    ∀ g : Grid, (gridKeys g).Nodup → (gridKeys (buildGridAux ps c is g)).Nodup := by
  induction is with
  | nil => intro g hg; exact hg
  | cons i rest ih =>
    intro g hg
    exact ih _ (nodup_gridKeys_insertPart g _ i hg)

theorem nodup_gridKeys_buildGrid (ps : List Particle) (c : ℚ) :
    (gridKeys (buildGrid ps c)).Nodup :=
  nodup_gridKeys_buildGridAux ps c (List.range ps.length) [] (by simp [gridKeys])

theorem bucketCount_buildGridAux (ps : List Particle) (c : ℚ) (is : List ℕ) :
    ∀ (g : Grid) (k : ℤ × ℤ) (j : ℕ),
      bucketCount (buildGridAux ps c is g) k j =
        bucketCount g k j + if k = cellOfIdx ps c j then is.count j else 0 := by
  induction is with
  | nil => intro g k j; simp [buildGridAux, List.count_nil]
  | cons i rest ih =>
    intro g k j
    unfold buildGridAux
    rw [ih, bucketCount_insertPart]
    by_cases hj : j = i
    · subst hj
      by_cases hk : k = cellOfIdx ps c j <;>
        simp [hk, List.count_cons] <;> omega
    · by_cases hk : k = cellOfIdx ps c j <;>
        simp [hk, hj, List.count_cons, Ne.symm hj] <;> omega

theorem countIn_buildGridAux (ps : List Particle) (c : ℚ) (is : List ℕ) :
    ∀ (g : Grid) (j : ℕ),
      countIn (buildGridAux ps c is g) j = countIn g j + is.count j := by
  induction is with
  | nil => intro g j; simp [buildGridAux, List.count_nil]
  | cons i rest ih =>
    intro g j
    unfold buildGridAux
    rw [ih, countIn_insertPart]
    by_cases hj : j = i <;> simp [hj, List.count_cons, Ne.symm] <;> omega

theorem count_range_eq (n j : ℕ) :
    (List.range n).count j = if j < n then 1 else 0 := by
  split_ifs with h
  · exact List.count_eq_one_of_mem (List.nodup_range n) (List.mem_range.mpr h)
  · exact List.count_eq_zero_of_not_mem (by simpa using h)

theorem bucketCount_buildGrid (ps : List Particle) (c : ℚ) (k : ℤ × ℤ) (j : ℕ) :
    bucketCount (buildGrid ps c) k j =
      if j < ps.length ∧ k = cellOfIdx ps c j then 1 else 0 := by
  unfold buildGrid
  rw [bucketCount_buildGridAux, count_range_eq]
  have h0 : bucketCount [] k j = 0 := by simp [bucketCount, lookupCell]
  rw [h0]
  by_cases h1 : k = cellOfIdx ps c j <;> by_cases h2 : j < ps.length <;> simp [h1, h2]

theorem countIn_buildGrid (ps : List Particle) (c : ℚ) (j : ℕ) :
    countIn (buildGrid ps c) j = if j < ps.length then 1 else 0 := by
  unfold buildGrid
  rw [countIn_buildGridAux, count_range_eq]
  simp [countIn]

theorem buildGrid_entry_prop (ps : List Particle) (c : ℚ) :
    ∀ kb ∈ buildGrid ps c, ∀ j ∈ kb.2, j < ps.length ∧ cellOfIdx ps c j = kb.1 := by
  unfold buildGrid
  have main : ∀ (is : List ℕ), (∀ i ∈ is, i < ps.length) →
      ∀ g : Grid, (∀ kb ∈ g, ∀ j ∈ kb.2, j < ps.length ∧ cellOfIdx ps c j = kb.1) →
        ∀ kb ∈ buildGridAux ps c is g, ∀ j ∈ kb.2,
          j < ps.length ∧ cellOfIdx ps c j = kb.1 := by
    intro is
    induction is with
    | nil => intro _ g hg; exact hg
    | cons i rest ih =>
      intro hmem g hg
      unfold buildGridAux
      exact ih (fun a ha => hmem a (List.mem_cons_of_mem _ ha)) _
        (insertPart_entry_prop (fun k j => j < ps.length ∧ cellOfIdx ps c j = k) g _ i hg
          ⟨hmem i (List.mem_cons_self _ _), rfl⟩)
  exact main (List.range ps.length) (fun a ha => List.mem_range.mp ha) [] (by simp)

theorem buildGrid_nonempty (ps : List Particle) (c : ℚ) :
    ∀ kb ∈ buildGrid ps c, kb.2 ≠ [] := by
  unfold buildGrid
  have main : ∀ (is : List ℕ) (g : Grid), (∀ kb ∈ g, kb.2 ≠ []) →
      ∀ kb ∈ buildGridAux ps c is g, kb.2 ≠ [] := by
    intro is
    induction is with
    | nil => intro g hg; exact hg
    | cons i rest ih =>
      intro g hg
      unfold buildGridAux
      exact ih _ (insertPart_nonempty g _ i hg)
  exact main (List.range ps.length) [] (by simp)

/-- C10: after the per-frame grid rebuild the buckets partition the particle
index set: every particle index occurs exactly once over all buckets, in a
bucket keyed by the floor-cell of its current position, and every bucket is
non-empty. -/
theorem grid_partition (ps : List Particle) (cellSize : ℚ) (i : ℕ)
    (hi : i < ps.length) :
    countIn (buildGrid ps cellSize) i = 1 ∧
      (∀ kb ∈ buildGrid ps cellSize, i ∈ kb.2 → kb.1 = cellOfIdx ps cellSize i) ∧
      (∀ kb ∈ buildGrid ps cellSize, kb.2 ≠ []) := by
  refine ⟨?_, ?_, buildGrid_nonempty ps cellSize⟩
  · rw [countIn_buildGrid, if_pos hi]
  · intro kb hkb hmem
    exact ((buildGrid_entry_prop ps cellSize kb hkb i hmem).2).symm

/-- Witness for `grid_partition` on a concrete two-particle configuration. -/
theorem grid_partition_witness :
    (0 < ([{ defaultParticle with x := 1, y := 1 },
           { defaultParticle with x := 100, y := 1 }] : List Particle).length) ∧
      (countIn (buildGrid
          [{ defaultParticle with x := 1, y := 1 },
           { defaultParticle with x := 100, y := 1 }] 32) 0 = 1 ∧
        (∀ kb ∈ buildGrid
            [{ defaultParticle with x := 1, y := 1 },
             { defaultParticle with x := 100, y := 1 }] 32, 0 ∈ kb.2 →
          kb.1 = cellOfIdx
            [{ defaultParticle with x := 1, y := 1 },
             { defaultParticle with x := 100, y := 1 }] 32 0) ∧
        (∀ kb ∈ buildGrid
            [{ defaultParticle with x := 1, y := 1 },
             { defaultParticle with x := 100, y := 1 }] 32, kb.2 ≠ [])) :=
  ⟨by norm_num,
   grid_partition
     [{ defaultParticle with x := 1, y := 1 },
      { defaultParticle with x := 100, y := 1 }] 32 0 (by norm_num)⟩

theorem lookupCell_eq_some_of_mem (g : Grid) (kb : (ℤ × ℤ) × List ℕ)
    (hnd : (gridKeys g).Nodup) (hkb : kb ∈ g) : lookupCell g kb.1 = some kb.2 := by
  induction g with
  | nil => cases hkb
  | cons kb0 rest ih =>
    obtain ⟨ha, hnd'⟩ :=
      List.nodup_cons.mp (show (kb0.1 :: gridKeys rest).Nodup from hnd)
    rcases List.mem_cons.mp hkb with h | h
    · subst h
      unfold lookupCell
      rw [if_pos rfl]
    · unfold lookupCell
      have hne : kb0.1 ≠ kb.1 := by
        intro he
        exact ha (he ▸ List.mem_map_of_mem Prod.fst h)
      rw [if_neg hne]
      exact ih hnd' h

theorem mem_gridKeys_of_lookup (g : Grid) (k : ℤ × ℤ) (b : List ℕ)
    (h : lookupCell g k = some b) : k ∈ gridKeys g := by
  induction g with
  | nil => simp [lookupCell] at h
  | cons kb0 rest ih =>
    unfold lookupCell at h
    by_cases hk : kb0.1 = k
    · simp [gridKeys, hk]
    · rw [if_neg hk] at h
      exact List.mem_cons_of_mem _ (ih h)

theorem pairCount_nil (i j : ℕ) : pairCount [] i j = 0 := rfl

theorem pairCount_append (l1 l2 : List (ℕ × ℕ)) (i j : ℕ) :
    pairCount (l1 ++ l2) i j = pairCount l1 i j + pairCount l2 i j :=
  List.countP_append _ _ _

theorem pairCount_flatMap {α : Type} (l : List α) (f : α → List (ℕ × ℕ)) (i j : ℕ) :
    pairCount (l.flatMap f) i j = (l.map fun x => pairCount (f x) i j).sum := by
  induction l with
  | nil => rfl
  | cons a rs ih =>
    simp only [List.flatMap_cons, List.map_cons, List.sum_cons, pairCount_append, ih]

theorem count_split (b : List ℕ) (j : ℕ) (hnd : b.Nodup) :
    b.count j = if j ∈ b then 1 else 0 := by
  split_ifs with h
  · exact List.count_eq_one_of_mem hnd h
  · exact List.count_eq_zero_of_not_mem h

theorem pairCount_map_pair (a : ℕ) (rest : List ℕ) (i j : ℕ) (hij : i ≠ j) :
    pairCount (rest.map fun b => (a, b)) i j =
      (if a = i then rest.count j else 0) + (if a = j then rest.count i else 0) := by
  induction rest with
  | nil => simp [pairCount]
  | cons b rs ih =>
    simp only [List.map_cons, pairCount, List.countP_cons] at *
    rw [ih]
    simp only [List.count_cons]
    by_cases hai : a = i <;> by_cases haj : a = j <;> by_cases hbi : b = i <;>
      by_cases hbj : b = j <;>
      simp_all <;> omega

theorem pairCount_crossPairs (b1 b2 : List ℕ) (i j : ℕ) (hij : i ≠ j) :
    pairCount (crossPairs b1 b2) i j =
      b1.count i * b2.count j + b1.count j * b2.count i := by
  unfold crossPairs
  induction b1 with
  | nil => simp [pairCount]
  | cons a rs ih =>
    simp only [List.flatMap_cons, pairCount_append, List.count_cons, ih]
    rw [pairCount_map_pair a b2 i j hij]
    by_cases hai : a = i <;> by_cases haj : a = j <;> simp_all <;> ring

theorem pairCount_pairsInBucket (b : List ℕ) (i j : ℕ) (hij : i ≠ j) (hnd : b.Nodup) :
    pairCount (pairsInBucket b) i j = if i ∈ b ∧ j ∈ b then 1 else 0 := by
  induction b with
  | nil => simp [pairsInBucket, pairCount]
  | cons a rs ih =>
    obtain ⟨ha, hnd'⟩ := List.nodup_cons.mp hnd
    simp only [pairsInBucket, pairCount_append]
    rw [ih hnd', pairCount_map_pair a rs i j hij]
    have hci := count_split rs i hnd'
    have hcj := count_split rs j hnd'
    have hji : j ≠ i := Ne.symm hij
    by_cases hai : a = i <;> by_cases haj : a = j <;>
      by_cases hir : i ∈ rs <;> by_cases hjr : j ∈ rs <;>
      simp_all [List.mem_cons] <;> split_ifs <;> simp_all <;> omega

theorem count_bucket_eq (ps : List Particle) (c : ℚ) (kb : (ℤ × ℤ) × List ℕ)
    (hkb : kb ∈ buildGrid ps c) (j : ℕ) :
    kb.2.count j = bucketCount (buildGrid ps c) kb.1 j := by
  unfold bucketCount
  rw [lookupCell_eq_some_of_mem _ kb (nodup_gridKeys_buildGrid ps c) hkb]
  rfl

theorem bucket_nodup (ps : List Particle) (c : ℚ) (kb : (ℤ × ℤ) × List ℕ)
    (hkb : kb ∈ buildGrid ps c) : kb.2.Nodup := by
  rw [List.nodup_iff_count_le_one]
  intro a
  rw [count_bucket_eq ps c kb hkb a, bucketCount_buildGrid]
  split_ifs <;> omega

theorem bucket_mem_iff (ps : List Particle) (c : ℚ) (kb : (ℤ × ℤ) × List ℕ)
    (hkb : kb ∈ buildGrid ps c) (j : ℕ) (hj : j < ps.length) :
    j ∈ kb.2 ↔ kb.1 = cellOfIdx ps c j := by
  constructor
  · intro h
    exact (buildGrid_entry_prop ps c kb hkb j h).2.symm
  · intro h
    have hcnt : kb.2.count j = 1 := by
      rw [count_bucket_eq ps c kb hkb, bucketCount_buildGrid, if_pos ⟨hj, h⟩]
    have : 0 < kb.2.count j := by omega
    exact List.count_pos_iff_mem.mp this

theorem ite_mul_split (P Q : Prop) [Decidable P] [Decidable Q] :
    ((if P then 1 else 0) * (if Q then 1 else 0) : ℕ) = if P ∧ Q then 1 else 0 := by
  by_cases hp : P <;> by_cases hq : Q <;> simp [hp, hq]

theorem pairCount_self_piece (ps : List Particle) (c : ℚ) (i j : ℕ) (hij : i ≠ j)
    (hi : i < ps.length) (hj : j < ps.length) (kb : (ℤ × ℤ) × List ℕ)
    (hkb : kb ∈ buildGrid ps c) :
    pairCount
      (match lookupCell (buildGrid ps c) (kb.1.1 + 0, kb.1.2 + 0) with
       | none => []
       | some nb =>
         if (kb.1.1 + 0, kb.1.2 + 0) = kb.1 then pairsInBucket kb.2
         else crossPairs kb.2 nb) i j =
      if kb.1 = cellOfIdx ps c i ∧ kb.1 = cellOfIdx ps c j then 1 else 0 := by
  have he : (kb.1.1 + 0, kb.1.2 + 0) = kb.1 := by simp
  have hsome : lookupCell (buildGrid ps c) (kb.1.1 + 0, kb.1.2 + 0) = some kb.2 := by
    rw [he]
    exact lookupCell_eq_some_of_mem _ kb (nodup_gridKeys_buildGrid ps c) hkb
  rcases hl : lookupCell (buildGrid ps c) (kb.1.1 + 0, kb.1.2 + 0) with _ | nb
  · rw [hl] at hsome; cases hsome
  · rw [hl] at hsome
    have hnb : nb = kb.2 := Option.some.inj hsome
    subst hnb
    show pairCount
        (if (kb.1.1 + 0, kb.1.2 + 0) = kb.1 then pairsInBucket kb.2
          else crossPairs kb.2 kb.2) i j = _
    rw [if_pos he]
    rw [pairCount_pairsInBucket kb.2 i j hij (bucket_nodup ps c kb hkb)]
    simp only [bucket_mem_iff ps c kb hkb i hi, bucket_mem_iff ps c kb hkb j hj]

theorem pairCount_offset_piece (ps : List Particle) (c : ℚ) (i j : ℕ) (hij : i ≠ j)
    (hi : i < ps.length) (hj : j < ps.length) (kb : (ℤ × ℤ) × List ℕ)
    (hkb : kb ∈ buildGrid ps c) (d : ℤ × ℤ) (hd : d ≠ (0, 0)) :
    pairCount
      (match lookupCell (buildGrid ps c) (kb.1.1 + d.1, kb.1.2 + d.2) with
       | none => []
       | some nb =>
         if (kb.1.1 + d.1, kb.1.2 + d.2) = kb.1 then pairsInBucket kb.2
         else crossPairs kb.2 nb) i j =
      (if kb.1 = cellOfIdx ps c i ∧
          (kb.1.1 + d.1, kb.1.2 + d.2) = cellOfIdx ps c j then 1 else 0) +
        (if kb.1 = cellOfIdx ps c j ∧
            (kb.1.1 + d.1, kb.1.2 + d.2) = cellOfIdx ps c i then 1 else 0) := by
  have hkne : (kb.1.1 + d.1, kb.1.2 + d.2) ≠ kb.1 := by
    intro he
    apply hd
    have h1 : kb.1.1 + d.1 = kb.1.1 := congrArg Prod.fst he
    have h2 : kb.1.2 + d.2 = kb.1.2 := congrArg Prod.snd he
    have hd1 : d.1 = 0 := by omega
    have hd2 : d.2 = 0 := by omega
    exact Prod.ext hd1 hd2
  rcases hl : lookupCell (buildGrid ps c) (kb.1.1 + d.1, kb.1.2 + d.2) with _ | nb
  · have hbci : bucketCount (buildGrid ps c) (kb.1.1 + d.1, kb.1.2 + d.2) i = 0 := by
      unfold bucketCount; rw [hl]; rfl
    have hbcj : bucketCount (buildGrid ps c) (kb.1.1 + d.1, kb.1.2 + d.2) j = 0 := by
      unfold bucketCount; rw [hl]; rfl
    rw [bucketCount_buildGrid] at hbci hbcj
    simp only [hi, hj, true_and] at hbci hbcj
    simp only [pairCount_nil]
    by_cases h1 : kb.1 = cellOfIdx ps c i ∧
        (kb.1.1 + d.1, kb.1.2 + d.2) = cellOfIdx ps c j
    · rw [if_pos h1.2] at hbcj
      exact absurd hbcj one_ne_zero
    · rw [if_neg h1]
      by_cases h2 : kb.1 = cellOfIdx ps c j ∧
          (kb.1.1 + d.1, kb.1.2 + d.2) = cellOfIdx ps c i
      · rw [if_pos h2.2] at hbci
        exact absurd hbci one_ne_zero
      · rw [if_neg h2]
  · have hnbi : nb.count i = bucketCount (buildGrid ps c) (kb.1.1 + d.1, kb.1.2 + d.2) i := by
      unfold bucketCount; rw [hl]; rfl
    have hnbj : nb.count j = bucketCount (buildGrid ps c) (kb.1.1 + d.1, kb.1.2 + d.2) j := by
      unfold bucketCount; rw [hl]; rfl
    show pairCount
        (if (kb.1.1 + d.1, kb.1.2 + d.2) = kb.1 then pairsInBucket kb.2
          else crossPairs kb.2 nb) i j = _
    rw [if_neg hkne]
    rw [pairCount_crossPairs kb.2 nb i j hij]
    rw [count_bucket_eq ps c kb hkb i, count_bucket_eq ps c kb hkb j, hnbi, hnbj]
    rw [bucketCount_buildGrid, bucketCount_buildGrid, bucketCount_buildGrid,
      bucketCount_buildGrid]
    simp only [hi, hj, true_and]
    rw [ite_mul_split, ite_mul_split]

theorem pairCount_cellPairs (ps : List Particle) (c : ℚ) (i j : ℕ) (hij : i ≠ j)
    (hi : i < ps.length) (hj : j < ps.length) (kb : (ℤ × ℤ) × List ℕ)
    (hkb : kb ∈ buildGrid ps c) :
    pairCount (cellPairs (buildGrid ps c) kb) i j =
      (if kb.1 = cellOfIdx ps c i ∧ kb.1 = cellOfIdx ps c j then 1 else 0) +
        (((if kb.1 = cellOfIdx ps c i ∧
              (kb.1.1 + 1, kb.1.2 + 0) = cellOfIdx ps c j then 1 else 0) +
            (if kb.1 = cellOfIdx ps c j ∧
              (kb.1.1 + 1, kb.1.2 + 0) = cellOfIdx ps c i then 1 else 0)) +
          (((if kb.1 = cellOfIdx ps c i ∧
              (kb.1.1 + 0, kb.1.2 + 1) = cellOfIdx ps c j then 1 else 0) +
            (if kb.1 = cellOfIdx ps c j ∧
              (kb.1.1 + 0, kb.1.2 + 1) = cellOfIdx ps c i then 1 else 0)) +
          (((if kb.1 = cellOfIdx ps c i ∧
              (kb.1.1 + 1, kb.1.2 + 1) = cellOfIdx ps c j then 1 else 0) +
            (if kb.1 = cellOfIdx ps c j ∧
              (kb.1.1 + 1, kb.1.2 + 1) = cellOfIdx ps c i then 1 else 0)) +
          ((if kb.1 = cellOfIdx ps c i ∧
              (kb.1.1 + -1, kb.1.2 + 1) = cellOfIdx ps c j then 1 else 0) +
            (if kb.1 = cellOfIdx ps c j ∧
              (kb.1.1 + -1, kb.1.2 + 1) = cellOfIdx ps c i then 1 else 0))))) := by
  unfold cellPairs
  rw [pairCount_flatMap]
  simp only [NEIGHBOR_OFFSETS, List.map_cons, List.map_nil, List.sum_cons, List.sum_nil]
  rw [pairCount_self_piece ps c i j hij hi hj kb hkb,
    pairCount_offset_piece ps c i j hij hi hj kb hkb (1, 0) (by decide),
    pairCount_offset_piece ps c i j hij hi hj kb hkb (0, 1) (by decide),
    pairCount_offset_piece ps c i j hij hi hj kb hkb (1, 1) (by decide),
    pairCount_offset_piece ps c i j hij hi hj kb hkb (-1, 1) (by decide)]
  ring

theorem entry_indicator_split (k ci cj : ℤ × ℤ) :
    ((if k = ci ∧ k = cj then 1 else 0) +
        (((if k = ci ∧ (k.1 + 1, k.2 + 0) = cj then 1 else 0) +
            (if k = cj ∧ (k.1 + 1, k.2 + 0) = ci then 1 else 0)) +
          (((if k = ci ∧ (k.1 + 0, k.2 + 1) = cj then 1 else 0) +
              (if k = cj ∧ (k.1 + 0, k.2 + 1) = ci then 1 else 0)) +
            (((if k = ci ∧ (k.1 + 1, k.2 + 1) = cj then 1 else 0) +
                (if k = cj ∧ (k.1 + 1, k.2 + 1) = ci then 1 else 0)) +
              ((if k = ci ∧ (k.1 + -1, k.2 + 1) = cj then 1 else 0) +
                (if k = cj ∧ (k.1 + -1, k.2 + 1) = ci then 1 else 0))))) : ℕ) =
      (if k = ci then
          (if ci = cj then 1 else 0) +
            ((if (ci.1 + 1, ci.2 + 0) = cj then 1 else 0) +
              ((if (ci.1 + 0, ci.2 + 1) = cj then 1 else 0) +
                ((if (ci.1 + 1, ci.2 + 1) = cj then 1 else 0) +
                  (if (ci.1 + -1, ci.2 + 1) = cj then 1 else 0))))
        else 0) +
        (if k = cj then
            (if (cj.1 + 1, cj.2 + 0) = ci then 1 else 0) +
              ((if (cj.1 + 0, cj.2 + 1) = ci then 1 else 0) +
                ((if (cj.1 + 1, cj.2 + 1) = ci then 1 else 0) +
                  (if (cj.1 + -1, cj.2 + 1) = ci then 1 else 0)))
          else 0) := by
  by_cases h1 : k = ci <;> by_cases h2 : k = cj
  · subst h1; subst h2
    simp only [eq_self_iff_true, true_and, and_self, if_true]
    try ring
  · subst h1
    simp only [eq_self_iff_true, true_and, if_true, h2, false_and, if_false]
    try ring
  · subst h2
    simp only [eq_self_iff_true, and_true, true_and, and_self, if_true, h1, false_and,
      if_false]
    try ring
  · simp only [h1, h2, false_and, if_false]
    try ring

theorem sum_map_add_split {α : Type} (K : List α) (f g : α → ℕ) :
    (K.map fun k => f k + g k).sum = (K.map f).sum + (K.map g).sum := by
  induction K with
  | nil => rfl
  | cons a rs ih =>
    simp only [List.map_cons, List.sum_cons, ih]
    ring

theorem sum_map_ite {α : Type} [DecidableEq α] (K : List α) (c0 : α) (m : ℕ) :
    K.Nodup → c0 ∈ K → (K.map fun k => if k = c0 then m else 0).sum = m := by
  induction K with
  | nil => intro _ h; cases h
  | cons a rs ih =>
    intro hnd hc
    obtain ⟨ha, hnd'⟩ := List.nodup_cons.mp hnd
    rcases List.mem_cons.mp hc with h | h
    · have ha' : c0 ∉ rs := fun hm => ha (h ▸ hm)
      simp only [List.map_cons, List.sum_cons, if_pos h.symm]
      have hz : (rs.map fun k => if k = c0 then m else 0).sum = 0 := by
        rw [List.map_congr_left fun k hk => if_neg (fun he : k = c0 => ha' (he ▸ hk))]
        simp
      rw [hz]
      omega
    · have hane : a ≠ c0 := fun he => ha (he ▸ h)
      simp only [List.map_cons, List.sum_cons, if_neg hane]
      rw [ih hnd' h]
      omega

theorem cell_mem_gridKeys (ps : List Particle) (c : ℚ) (i : ℕ) (hi : i < ps.length) :
    cellOfIdx ps c i ∈ gridKeys (buildGrid ps c) := by
  have h1 : bucketCount (buildGrid ps c) (cellOfIdx ps c i) i = 1 := by
    rw [bucketCount_buildGrid, if_pos ⟨hi, rfl⟩]
  rcases hl : lookupCell (buildGrid ps c) (cellOfIdx ps c i) with _ | b
  · exfalso
    unfold bucketCount at h1
    rw [hl] at h1
    simp at h1
  · exact mem_gridKeys_of_lookup _ _ b hl

theorem pairCount_emitted (ps : List Particle) (c : ℚ) (i j : ℕ) (hij : i ≠ j)
    (hi : i < ps.length) (hj : j < ps.length) :
    pairCount (emittedPairs ps c) i j =
      neighborIndicator (cellOfIdx ps c i) (cellOfIdx ps c j) := by
  set ci := cellOfIdx ps c i with hci
  set cj := cellOfIdx ps c j with hcj
  set A : ℕ := (if ci = cj then 1 else 0) +
      ((if (ci.1 + 1, ci.2 + 0) = cj then 1 else 0) +
        ((if (ci.1 + 0, ci.2 + 1) = cj then 1 else 0) +
          ((if (ci.1 + 1, ci.2 + 1) = cj then 1 else 0) +
            (if (ci.1 + -1, ci.2 + 1) = cj then 1 else 0)))) with hA
  set B : ℕ := (if (cj.1 + 1, cj.2 + 0) = ci then 1 else 0) +
      ((if (cj.1 + 0, cj.2 + 1) = ci then 1 else 0) +
        ((if (cj.1 + 1, cj.2 + 1) = ci then 1 else 0) +
          (if (cj.1 + -1, cj.2 + 1) = ci then 1 else 0))) with hB
  have hstep : (buildGrid ps c).map
        (fun kb => pairCount (cellPairs (buildGrid ps c) kb) i j) =
      (buildGrid ps c).map
        (fun kb => (if kb.1 = ci then A else 0) + (if kb.1 = cj then B else 0)) :=
    List.map_congr_left fun kb hkb => by
      rw [pairCount_cellPairs ps c i j hij hi hj kb hkb]
      exact entry_indicator_split kb.1 ci cj
  unfold emittedPairs forEachCandidatePair
  rw [pairCount_flatMap, hstep, sum_map_add_split]
  rw [show (fun kb : (ℤ × ℤ) × List ℕ => if kb.1 = ci then A else 0) =
      ((fun k : ℤ × ℤ => if k = ci then A else 0) ∘ Prod.fst) from rfl]
  rw [show (fun kb : (ℤ × ℤ) × List ℕ => if kb.1 = cj then B else 0) =
      ((fun k : ℤ × ℤ => if k = cj then B else 0) ∘ Prod.fst) from rfl]
  rw [← List.map_map, ← List.map_map]
  rw [show List.map Prod.fst (buildGrid ps c) = gridKeys (buildGrid ps c) from rfl]
  rw [sum_map_ite _ _ _ (nodup_gridKeys_buildGrid ps c) (hci ▸ cell_mem_gridKeys ps c i hi),
    sum_map_ite _ _ _ (nodup_gridKeys_buildGrid ps c) (hcj ▸ cell_mem_gridKeys ps c j hj)]
  rw [hA, hB]
  unfold neighborIndicator
  simp only [NEIGHBOR_OFFSETS, List.drop_succ_cons, List.drop_zero, List.map_cons,
    List.map_nil, List.sum_cons, List.sum_nil]
  ring

set_option maxHeartbeats 1000000 in
theorem neighborIndicator_eq_cheb (ci cj : ℤ × ℤ) :
    neighborIndicator ci cj = if chebDist ci cj ≤ 1 then 1 else 0 := by
  obtain ⟨a1, a2⟩ := ci
  obtain ⟨b1, b2⟩ := cj
  simp only [neighborIndicator, chebDist, NEIGHBOR_OFFSETS, List.drop_succ_cons,
    List.drop_zero, List.map_cons, List.map_nil, List.sum_cons, List.sum_nil,
    Prod.mk.injEq, max_le_iff, abs_le]
  split_ifs <;> omega

theorem floor_dist_le_one (x y c : ℚ) (hc : 0 < c) (h : |x - y| < c) :
    |⌊x / c⌋ - ⌊y / c⌋| ≤ 1 := by
  rw [abs_lt] at h
  have hxy : x / c < y / c + 1 := by
    have h1 : (x - y) / c < 1 := (div_lt_one hc).mpr h.2
    have h2 : (x - y) / c = x / c - y / c := sub_div x y c
    linarith
  have hyx : y / c < x / c + 1 := by
    have h1 : (y - x) / c < 1 := (div_lt_one hc).mpr (by linarith)
    have h2 : (y - x) / c = y / c - x / c := sub_div y x c
    linarith
  have hf1 : ⌊x / c⌋ ≤ ⌊y / c⌋ + 1 := by
    have := Int.floor_le_floor (le_of_lt hxy)
    rw [Int.floor_add_one] at this
    exact this
  have hf2 : ⌊y / c⌋ ≤ ⌊x / c⌋ + 1 := by
    have := Int.floor_le_floor (le_of_lt hyx)
    rw [Int.floor_add_one] at this
    exact this
  rw [abs_le]
  omega

theorem abs_lt_of_sq_lt (x c : ℚ) (hc : 0 < c) (h : x ^ 2 < c ^ 2) : |x| < c := by
  by_contra hcon
  push_neg at hcon
  have h1 : c * c ≤ |x| * |x| := mul_le_mul hcon hcon (le_of_lt hc) (abs_nonneg x)
  rw [abs_mul_abs_self] at h1
  nlinarith

/-- C1: the grid traversal invokes the collision callback on every unordered
pair of distinct particle indices whose cells are within Chebyshev distance 1
exactly once, and never on a pair whose cells are farther apart; in
particular, when the cell size is at least twice the maximum radius, every
overlapping pair is visited exactly once. -/
theorem grid_pair_coverage (ps : List Particle) (c : ℚ) (hc : 0 < c) (i j : ℕ)
    (hi : i < ps.length) (hj : j < ps.length) (hij : i ≠ j) :
    pairCount (emittedPairs ps c) i j =
        (if chebDist (cellOfIdx ps c i) (cellOfIdx ps c j) ≤ 1 then 1 else 0) ∧
      (∀ R : ℚ, (∀ p ∈ ps, 0 ≤ p.radius ∧ p.radius ≤ R) → 2 * R ≤ c →
        ((ps.getD i defaultParticle).x - (ps.getD j defaultParticle).x) ^ 2 +
            ((ps.getD i defaultParticle).y - (ps.getD j defaultParticle).y) ^ 2 <
          ((ps.getD i defaultParticle).radius + (ps.getD j defaultParticle).radius) ^ 2 →
        pairCount (emittedPairs ps c) i j = 1) := by
  have hmain : pairCount (emittedPairs ps c) i j =
      if chebDist (cellOfIdx ps c i) (cellOfIdx ps c j) ≤ 1 then 1 else 0 := by
    rw [pairCount_emitted ps c i j hij hi hj, neighborIndicator_eq_cheb]
  refine ⟨hmain, ?_⟩
  intro R hR h2R hover
  set pi := ps.getD i defaultParticle with hpi
  set pj := ps.getD j defaultParticle with hpj
  have hpimem : pi ∈ ps := by
    rw [hpi, List.getD_eq_getElem ps defaultParticle hi]
    exact List.getElem_mem hi
  have hpjmem : pj ∈ ps := by
    rw [hpj, List.getD_eq_getElem ps defaultParticle hj]
    exact List.getElem_mem hj
  have hri := hR pi hpimem
  have hrj := hR pj hpjmem
  have hRnn : 0 ≤ R := le_trans hri.1 hri.2
  have hsum : (pi.radius + pj.radius) ^ 2 ≤ c ^ 2 := by
    have h1 : pi.radius + pj.radius ≤ 2 * R := by linarith [hri.2, hrj.2]
    have h2 : 0 ≤ pi.radius + pj.radius := by linarith [hri.1, hrj.1]
    have h3 : pi.radius + pj.radius ≤ c := le_trans h1 h2R
    nlinarith
  have hdx : |pi.x - pj.x| < c := by
    apply abs_lt_of_sq_lt _ _ hc
    nlinarith [sq_nonneg (pi.y - pj.y)]
  have hdy : |pi.y - pj.y| < c := by
    apply abs_lt_of_sq_lt _ _ hc
    nlinarith [sq_nonneg (pi.x - pj.x)]
  have hcheb : chebDist (cellOfIdx ps c i) (cellOfIdx ps c j) ≤ 1 := by
    unfold cellOfIdx cellOf chebDist
    rw [← hpi, ← hpj]
    rw [rat_floor_eq_int_floor, rat_floor_eq_int_floor, rat_floor_eq_int_floor,
      rat_floor_eq_int_floor]
    exact max_le (floor_dist_le_one pi.x pj.x c hc hdx)
      (floor_dist_le_one pi.y pj.y c hc hdy)
  rw [hmain, if_pos hcheb]


/-- Witness for `grid_pair_coverage`: two overlapping unit-radius particles
in the same cell of a 32-cell grid; the traversal emits the pair once. -/
theorem grid_pair_coverage_witness :
    ((0 : ℚ) < 32 ∧
        0 < ([{ defaultParticle with x := 1, y := 1, radius := 1 },
              { defaultParticle with x := 2, y := 2, radius := 1 }] : List Particle).length ∧
        1 < ([{ defaultParticle with x := 1, y := 1, radius := 1 },
              { defaultParticle with x := 2, y := 2, radius := 1 }] : List Particle).length ∧
        (0 : ℕ) ≠ 1) ∧
      (pairCount (emittedPairs
            [{ defaultParticle with x := 1, y := 1, radius := 1 },
             { defaultParticle with x := 2, y := 2, radius := 1 }] 32) 0 1 =
          (if chebDist
              (cellOfIdx
                [{ defaultParticle with x := 1, y := 1, radius := 1 },
                 { defaultParticle with x := 2, y := 2, radius := 1 }] 32 0)
              (cellOfIdx
                [{ defaultParticle with x := 1, y := 1, radius := 1 },
                 { defaultParticle with x := 2, y := 2, radius := 1 }] 32 1) ≤ 1
            then 1 else 0) ∧
        (∀ R : ℚ,
          (∀ p ∈ ([{ defaultParticle with x := 1, y := 1, radius := 1 },
                   { defaultParticle with x := 2, y := 2, radius := 1 }] : List Particle),
            0 ≤ p.radius ∧ p.radius ≤ R) →
          2 * R ≤ 32 →
          ((([{ defaultParticle with x := 1, y := 1, radius := 1 },
              { defaultParticle with x := 2, y := 2, radius := 1 }] :
                List Particle).getD 0 defaultParticle).x -
                (([{ defaultParticle with x := 1, y := 1, radius := 1 },
                   { defaultParticle with x := 2, y := 2, radius := 1 }] :
                    List Particle).getD 1 defaultParticle).x) ^ 2 +
              ((([{ defaultParticle with x := 1, y := 1, radius := 1 },
                  { defaultParticle with x := 2, y := 2, radius := 1 }] :
                    List Particle).getD 0 defaultParticle).y -
                (([{ defaultParticle with x := 1, y := 1, radius := 1 },
                   { defaultParticle with x := 2, y := 2, radius := 1 }] :
                    List Particle).getD 1 defaultParticle).y) ^ 2 <
            ((([{ defaultParticle with x := 1, y := 1, radius := 1 },
                { defaultParticle with x := 2, y := 2, radius := 1 }] :
                  List Particle).getD 0 defaultParticle).radius +
              (([{ defaultParticle with x := 1, y := 1, radius := 1 },
                 { defaultParticle with x := 2, y := 2, radius := 1 }] :
                  List Particle).getD 1 defaultParticle).radius) ^ 2 →
          pairCount (emittedPairs
            [{ defaultParticle with x := 1, y := 1, radius := 1 },
             { defaultParticle with x := 2, y := 2, radius := 1 }] 32) 0 1 = 1)) ∧
      pairCount (emittedPairs
        [{ defaultParticle with x := 1, y := 1, radius := 1 },
         { defaultParticle with x := 2, y := 2, radius := 1 }] 32) 0 1 = 1 :=
  ⟨⟨by norm_num, by norm_num, by norm_num, by norm_num⟩,
   grid_pair_coverage
     [{ defaultParticle with x := 1, y := 1, radius := 1 },
      { defaultParticle with x := 2, y := 2, radius := 1 }] 32 (by norm_num) 0 1
     (by norm_num) (by norm_num) (by norm_num),
   by with_unfolding_all decide⟩

end ParticleSim
